import Mathlib

/-!
Chat client: message log, unread counters and conversation ranking

A shallow embedding of the state-changing logic of the two React components
`client1/src/components/Chat.js` and `client1/src/components/Sidebar.js`.

Modelling conventions.

* A React state variable is a field of a state record; a handler is a function
  from the state before to the state after (plus the socket emissions and
  callbacks it performs).
* An `async` handler is cut at its `await`: the part before the `await`
  returns the values captured by the closure (a request record), the part after
  it takes the outcome of the request and the state *at resolution time*
  (every state write after an `await` is either a constant write or a
  functional update `setX(prev => ...)`).
* Ids are natural numbers; a nullable id is `Option Nat`, `none` standing for
  `null`/absent.  JavaScript truthiness of such a value is `truthy`
  (`null` and `0` are falsy).
* A timestamp string is carried as the `Int` number of milliseconds that
  `new Date(s).getTime()` yields for it; an absent or empty timestamp is `none`.
  In the sidebar registry, whose stored time strings the ranking parses, a
  stored string that is no date is `TimeValue.nan`.
* `String.prototype.toLowerCase` is a parameter of the ranking functions.
-/

/-- JavaScript truthiness of a nullable numeric id: `null` and `0` are falsy. -/
def truthy : Option Nat → Bool
  | none => false
  | some n => n != 0

/-- JavaScript `x || null` on a nullable numeric id. -/
def orNull (x : Option Nat) : Option Nat :=
  if truthy x then x else none

/-- A message record as it travels in history responses and socket events. -/
structure Message where
  id : Nat
  sender_id : Option Nat
  sender_name : String
  receiver_id : Option Nat
  group_id : Option Nat
  message : String
  created_at : Option Int
deriving DecidableEq, Repr

/-- Outcome of an `axios.get` of a message history: the response body, or a
rejection carrying the HTTP status of `error.response` when there is one. -/
inductive GetOutcome where
  | ok (data : List Message)
  | error (status : Option Nat)
deriving DecidableEq, Repr

/-- Body of a successful send response (`response.data`). -/
structure SendResponse where
  id : Nat
  sender_name : String
  created_at : Option Int
deriving DecidableEq, Repr

/-- Outcome of the `axios.post` of a send: a response whose `data` may be
falsy, or a rejection. -/
inductive PostOutcome where
  | ok (data : Option SendResponse)
  | error
deriving DecidableEq, Repr

/-- A `socket.emit` performed by the Chat component. -/
inductive Emit where
  | newMessage (m : Message)
  | newGroupMessage (m : Message)
deriving DecidableEq, Repr

namespace Chat

/-- Props and state of the `Chat` component. -/
structure State where
  selectedUserId : Option Nat
  selectedGroupId : Option Nat
  messages : List Message
  inputMessage : String
  userId : Option Nat
  userName : String
  loading : Bool
deriving DecidableEq, Repr

/-- The initial state of a freshly mounted component (`useState` defaults). -/
def init (selectedUserId selectedGroupId : Option Nat) : State :=
  { selectedUserId := selectedUserId, selectedGroupId := selectedGroupId,
    messages := [], inputMessage := "", userId := none, userName := "",
    loading := true }

/-- The history request a load was issued for, with the id captured by the
closure. -/
inductive FetchRequest where
  | direct (selectedUserId : Option Nat)
  | group (selectedGroupId : Option Nat)
deriving DecidableEq, Repr

/-- First half of `fetchMessages`, up to the `await axios.get`: without a token
it only clears `loading`; otherwise it issues the request selected by the
props (direct first, then group); with nothing selected only `finally` runs. -/
def fetchMessages_begin (token : Bool) (s : State) : State × Option FetchRequest :=
  if !token then ({ s with loading := false }, none)
  else if truthy s.selectedUserId then (s, some (.direct s.selectedUserId))
  else if truthy s.selectedGroupId then (s, some (.group s.selectedGroupId))
  else ({ s with loading := false }, none)

/-- Second half of `fetchMessages`: what runs once the request settles.  It never
looks at the request it belongs to nor at the current selection. -/
def fetchMessages_resume (_req : FetchRequest) (o : GetOutcome) (s : State) : State :=
  match o with
  | .ok data => { s with messages := data, loading := false }
  | .error status =>
    if status = some 404 then { s with messages := [], loading := false }
    else { s with loading := false }

/-- The first effect, run when `selectedUserId`/`selectedGroupId` change: the
identity decoded from the token is stored and, when something is selected,
`fetchMessages` is started.  Neither `messages` nor `loading` is reset. -/
def selectConversation (token : Bool) (identity : Option Nat × String)
    (selectedUserId selectedGroupId : Option Nat) (s : State) :
    State × Option FetchRequest :=
  let s1 : State := { s with selectedUserId := selectedUserId,
                             selectedGroupId := selectedGroupId,
                             userId := identity.1, userName := identity.2 }
  if truthy selectedUserId || truthy selectedGroupId then fetchMessages_begin token s1
  else (s1, none)

/-- The relevance test of `handleNewMessage`. -/
def accepts (s : State) (m : Message) : Bool :=
  if truthy s.selectedUserId then
    (decide (m.sender_id = s.userId) && decide (m.receiver_id = s.selectedUserId)) ||
    (decide (m.sender_id = s.selectedUserId) && decide (m.receiver_id = s.userId))
  else if truthy s.selectedGroupId then
    decide (m.group_id = s.selectedGroupId)
  else false

/-- The socket listener `handleNewMessage`. -/
def handleNewMessage (m : Message) (s : State) : State :=
  if truthy s.selectedUserId then
    if (m.sender_id = s.userId ∧ m.receiver_id = s.selectedUserId) ∨
       (m.sender_id = s.selectedUserId ∧ m.receiver_id = s.userId) then
      { s with messages := s.messages ++ [m] }
    else s
  else if truthy s.selectedGroupId then
    if m.group_id = s.selectedGroupId then
      { s with messages := s.messages ++ [m] }
    else s
  else s

/-- Truthiness of `inputMessage.trim()`: some character is not white space. -/
def hasContent (input : String) : Bool :=
  input.data.any (fun c => !c.isWhitespace)

/-- The values the `handleSendMessage` closure holds across its `await`. -/
structure SendRequest where
  selectedUserId : Option Nat
  selectedGroupId : Option Nat
  userId : Option Nat
  inputMessage : String
deriving DecidableEq, Repr

/-- First half of `handleSendMessage`, up to the `await axios.post`: when the
guard passes the input is cleared and the request issued. -/
def handleSendMessage_begin (s : State) : State × Option SendRequest :=
  if hasContent s.inputMessage && (truthy s.selectedUserId || truthy s.selectedGroupId) then
    ({ s with inputMessage := "" },
     some { selectedUserId := s.selectedUserId, selectedGroupId := s.selectedGroupId,
            userId := s.userId, inputMessage := s.inputMessage })
  else (s, none)

/-- The `sentMessage` object built from the response. -/
def sentMessage (r : SendRequest) (d : SendResponse) (now : Int) : Message :=
  { id := d.id, sender_id := r.userId, sender_name := d.sender_name,
    receiver_id := orNull r.selectedUserId, group_id := orNull r.selectedGroupId,
    message := r.inputMessage, created_at := some (d.created_at.getD now) }

/-- Second half of `handleSendMessage`: append and emit on a response with
data; a rejection is only logged. -/
def handleSendMessage_resume (r : SendRequest) (o : PostOutcome) (now : Int) (s : State) :
    State × List Emit :=
  match o with
  | .error => (s, [])
  | .ok none => (s, [])
  | .ok (some d) =>
    let sent := sentMessage r d now
    ({ s with messages := s.messages ++ [sent] },
     if truthy r.selectedUserId then [Emit.newMessage sent]
     else if truthy r.selectedGroupId then [Emit.newGroupMessage sent]
     else [])

/-- A whole `handleSendMessage` call with nothing interleaved at its `await`. -/
def handleSendMessage (o : PostOutcome) (now : Int) (s : State) : State × List Emit :=
  match handleSendMessage_begin s with
  | (s1, some r) => handleSendMessage_resume r o now s1
  | (s1, none) => (s1, [])

/-- Number of log entries carrying a given id. -/
def countId (i : Nat) (log : List Message) : Nat :=
  log.countP (fun m => m.id == i)

/-- Whether `a` may stand right before `b` in a log ordered by `created_at`
(entries without a timestamp are not compared). -/
def createdLe (a b : Message) : Bool :=
  match a.created_at, b.created_at with
  | some ta, some tb => decide (ta ≤ tb)
  | _, _ => true

/-- The log is non-decreasing in `created_at` across consecutive entries. -/
def nonDecreasing (log : List Message) : Prop :=
  log.Chain' (fun a b => createdLe a b = true)

end Chat

namespace Sidebar

/-- What `new Date(s).getTime()` yields for a stored time string `s`: a number
of milliseconds, or `NaN` when `s` is not a date. -/
inductive TimeValue where
  | ms (t : Int)
  | nan
deriving DecidableEq, Repr

/-- A user entry of the sidebar registry; an absent (or empty) time string is
`none`. -/
structure User where
  id : Nat
  username : String
  mostRecentMessageTime : Option TimeValue
  unreadMessagesCount : Option Nat
  messages : Option (List Message)
deriving DecidableEq, Repr

/-- A group entry of the sidebar registry.  `unreadMessagesCount` stands for
whatever unread counter the object carries; object spread copies it. -/
structure Group where
  id : Nat
  name : String
  mostRecentMessageTime : Option TimeValue
  unreadMessagesCount : Option Nat
  messages : Option (List Message)
deriving DecidableEq, Repr

/-- State of the `Sidebar` component. -/
structure State where
  users : List User
  groups : List Group
  currentUser : Option Nat
  searchQuery : String
  selectedGroupId : Option Nat
deriving DecidableEq, Repr

/-- The per-group update of the `newMessage` listener. -/
def updateGroup (messageTime : Int) (m : Message) (g : Group) : Group :=
  if some g.id = m.group_id then
    { g with mostRecentMessageTime := some (.ms messageTime),
             messages := some (match g.messages with
                               | some ms => ms ++ [m]
                               | none => [m]) }
  else g

/-- The per-user update of the `newMessage` listener. -/
def updateUser (messageTime : Int) (m : Message) (u : User) : User :=
  if some u.id = m.sender_id then
    { u with mostRecentMessageTime := some (.ms messageTime),
             unreadMessagesCount := some (u.unreadMessagesCount.getD 0 + 1),
             messages := some (match u.messages with
                               | some ms => ms ++ [m]
                               | none => [m]) }
  else u

/-- The `socket.on('newMessage', ...)` listener of the sidebar; `now` is the
clock reading used when the message has no `created_at`. -/
def onNewMessage (now : Int) (m : Message) (s : State) : State :=
  let messageTime := m.created_at.getD now
  if truthy m.group_id then
    { s with groups := s.groups.map (updateGroup messageTime m) }
  else if truthy m.sender_id then
    { s with users := s.users.map (updateUser messageTime m) }
  else s

/-- JavaScript `haystack.includes(needle)`. -/
def includes (haystack needle : String) : Bool :=
  haystack.data.tails.any (fun t => needle.data.isPrefixOf t)

/-- The number a sort comparator reads off an entry, `none` standing for `NaN`:
`getTime()` of the last activity, `0` when there is none. -/
def recentMessage (t : Option TimeValue) : Option Int :=
  match t with
  | some (.ms v) => some v
  | some .nan => none
  | none => some 0

/-- JavaScript `b - a` on numbers, `none` standing for `NaN`. -/
def minus (b a : Option Int) : Option Int :=
  match b, a with
  | some x, some y => some (x - y)
  | _, _ => none

/-- JavaScript `Array.prototype.sort(compare)`: a stable sort in which a
comparator result of `NaN` counts as `+0` and an element `a` stays in front
of `b` when `compare(a, b) ≤ 0`.  (For a comparator that is not a consistent
ordering the language leaves the order to the implementation; the value here
is then the order one stable algorithm produces.) -/
def sort {α : Type} (compare : α → α → Option Int) (l : List α) : List α :=
  l.insertionSort (fun a b => (compare a b).getD 0 ≤ 0)

/-- The derived list `filteredUsers`; `toLowerCase` is the platform's
`String.prototype.toLowerCase`. -/
def filteredUsers (toLowerCase : String → String) (users : List User) (searchQuery : String) :
    List User :=
  sort (fun a b => minus (recentMessage b.mostRecentMessageTime)
                         (recentMessage a.mostRecentMessageTime))
    (users.filter (fun user => includes (toLowerCase user.username) (toLowerCase searchQuery)))

/-- The derived list `filteredGroups`; `toLowerCase` is the platform's
`String.prototype.toLowerCase`. -/
def filteredGroups (toLowerCase : String → String) (groups : List Group)
    (searchQuery : String) : List Group :=
  sort (fun a b => minus (recentMessage b.mostRecentMessageTime)
                         (recentMessage a.mostRecentMessageTime))
    (groups.filter (fun group => includes (toLowerCase group.name) (toLowerCase searchQuery)))

/-- A recorded last-activity time as message timestamps give it: absent, or a
date after the epoch (`getTime()` is a number greater than `0`). -/
def afterEpoch (t : Option TimeValue) : Bool :=
  match t with
  | none => true
  | some (.ms v) => decide (0 < v)
  | some .nan => false

/-- Outcome of one of the two requests of `handleSelectUser`. -/
inductive Outcome (α : Type) where
  | ok (data : α)
  | error
deriving DecidableEq, Repr

/-- The handler `handleSelectUser`, run to completion: `markRead` is the outcome
of the mark-as-read POST, `userResponse` that of the following GET of the
current user.  The second component tells whether `onSelectUser(userId)` was
called. -/
def handleSelectUser (token : Bool) (markRead : Outcome Unit) (userResponse : Outcome (Option Nat))
    (userId : Nat) (s : State) : State × Option Nat :=
  if !token then (s, none)
  else
    match markRead with
    | .error => (s, none)
    | .ok _ =>
      match userResponse with
      | .error => (s, none)
      | .ok data =>
        ({ s with currentUser := data,
                  users := s.users.map (fun user =>
                    if user.id = userId then { user with unreadMessagesCount := some 0 }
                    else user) },
         some userId)

/-- The unread count shown for a user id: the counter of the registry entry
with that id (`0` for an absent counter or entry). -/
def unreadCount (users : List User) (id : Nat) : Nat :=
  match users.find? (fun u => u.id == id) with
  | some u => u.unreadMessagesCount.getD 0
  | none => 0

/-- The unread count carried by a group entry, by group id. -/
def groupUnreadCount (groups : List Group) (id : Nat) : Nat :=
  match groups.find? (fun g => g.id == id) with
  | some g => g.unreadMessagesCount.getD 0
  | none => 0

end Sidebar

/-! ## Concrete inputs -/

namespace Chat

/-- The viewer `1` with the direct conversation with peer `42` open and `hi`
typed into the input. -/
def peer42 : State :=
  { selectedUserId := some 42, selectedGroupId := none, messages := [],
    inputMessage := "hi", userId := some 1, userName := "ann", loading := false }

/-- The send response of Scenario B: id `7`, timestamp `1000`. -/
def confirmed7 : SendResponse :=
  { id := 7, sender_name := "ann", created_at := some 1000 }

/-- The message the send of `hi` to peer `42` appends and broadcasts. -/
def echo7 : Message :=
  { id := 7, sender_id := some 1, sender_name := "ann", receiver_id := some 42,
    group_id := none, message := "hi", created_at := some 1000 }

/-- A live message from peer `42` to the viewer, created at `2000`. -/
def live9 : Message :=
  { id := 9, sender_id := some 42, sender_name := "bob", receiver_id := some 1,
    group_id := none, message := "yo", created_at := some 2000 }

/-- A historical message of the conversation with peer `42`, created at `500`. -/
def hist3 : Message :=
  { id := 3, sender_id := some 42, sender_name := "bob", receiver_id := some 1,
    group_id := none, message := "old", created_at := some 500 }

/-- A historical message of the conversation with peer `77`. -/
def hist5 : Message :=
  { id := 5, sender_id := some 77, sender_name := "cy", receiver_id := some 1,
    group_id := none, message := "other", created_at := some 700 }

end Chat

namespace Sidebar

/-- Peer `42`, with three unread messages and no recorded activity. -/
def bob42 : User :=
  { id := 42, username := "bob", mostRecentMessageTime := none,
    unreadMessagesCount := some 3, messages := none }

/-- User `2`, with nothing unread. -/
def carl2 : User :=
  { id := 2, username := "carl", mostRecentMessageTime := none,
    unreadMessagesCount := some 0, messages := none }

/-- Group `5` of Scenario C, with nothing unread. -/
def team5 : Group :=
  { id := 5, name := "team", mostRecentMessageTime := none,
    unreadMessagesCount := some 0, messages := none }

/-- The sidebar of viewer `1`: users `42` and `2`, group `5`, no group open. -/
def roster : State :=
  { users := [bob42, carl2], groups := [team5], currentUser := some 1,
    searchQuery := "", selectedGroupId := none }

/-- The live event of Scenario C: message `9` to group `5`. -/
def groupEvent9 : Message :=
  { id := 9, sender_id := some 2, sender_name := "carl", receiver_id := none,
    group_id := some 5, message := "all", created_at := some 3000 }

/-- A direct message from user `2` to user `3`, neither being the viewer `1`. -/
def foreign11 : Message :=
  { id := 11, sender_id := some 2, sender_name := "carl", receiver_id := some 3,
    group_id := none, message := "psst", created_at := some 4000 }

/-- A user named `Al` that never had activity. -/
def al : User :=
  { id := 7, username := "Al", mostRecentMessageTime := none,
    unreadMessagesCount := none, messages := none }

/-- A user named `alma` whose last activity is at `9000`. -/
def alma : User :=
  { id := 8, username := "alma", mostRecentMessageTime := some (.ms 9000),
    unreadMessagesCount := none, messages := none }

/-- A user named `ALBERT` whose last activity is at `5000`. -/
def albert : User :=
  { id := 9, username := "ALBERT", mostRecentMessageTime := some (.ms 5000),
    unreadMessagesCount := none, messages := none }

/-- A user named `Val` that never had activity. -/
def val : User :=
  { id := 10, username := "Val", mostRecentMessageTime := none,
    unreadMessagesCount := none, messages := none }

/-- Lower-casing of the unaccented Latin letters, which is what `toLowerCase`
does on the names and the query of the concrete inputs. -/
def lowerLatin (s : String) : String :=
  String.mk (s.data.map Char.toLower)

end Sidebar

/-! ## The message log of `Chat` -/

namespace Chat

theorem accepts_iff (s : State) (m : Message) :
    accepts s m = true ↔
      (truthy s.selectedUserId = true ∧
        ((m.sender_id = s.userId ∧ m.receiver_id = s.selectedUserId) ∨
         (m.sender_id = s.selectedUserId ∧ m.receiver_id = s.userId))) ∨
      (truthy s.selectedUserId = false ∧ truthy s.selectedGroupId = true ∧
        m.group_id = s.selectedGroupId) := by
  unfold accepts
  by_cases hu : truthy s.selectedUserId = true
  · simp [hu]
  · by_cases hg : truthy s.selectedGroupId = true
    · simp [hu, hg]
    · simp [hu, hg]

theorem handleNewMessage_eq (m : Message) (s : State) :
    handleNewMessage m s =
      if accepts s m = true then { s with messages := s.messages ++ [m] } else s := by
  unfold handleNewMessage accepts
  by_cases hu : truthy s.selectedUserId = true
  · by_cases h : (m.sender_id = s.userId ∧ m.receiver_id = s.selectedUserId) ∨
        (m.sender_id = s.selectedUserId ∧ m.receiver_id = s.userId)
    · simp only [hu, if_true, if_pos h]
      rw [if_pos]
      simpa using h
    · simp only [hu, if_true, if_neg h]
      rw [if_neg]
      simpa using h
  · by_cases hg : truthy s.selectedGroupId = true
    · by_cases h : m.group_id = s.selectedGroupId
      · simp [hu, hg, h]
      · simp [hu, hg, h]
    · simp [hu, hg]

theorem handleNewMessage_messages (m : Message) (s : State) :
    (handleNewMessage m s).messages =
      if accepts s m = true then s.messages ++ [m] else s.messages := by
  rw [handleNewMessage_eq]
  split <;> rfl

theorem countId_append_singleton (i : Nat) (log : List Message) (m : Message) :
    countId i (log ++ [m]) = countId i log + (if m.id = i then 1 else 0) := by
  unfold countId
  rw [List.countP_append]
  by_cases h : m.id = i
  · simp [List.countP_cons, h]
  · simp [List.countP_cons, h]

theorem nonDecreasing_append_singleton (log : List Message) (m : Message) :
    nonDecreasing (log ++ [m]) ↔
      nonDecreasing log ∧ ∀ l ∈ log.getLast?, createdLe l m = true := by
  unfold nonDecreasing
  rw [List.chain'_append]
  simp

end Chat

namespace Chat

/-- C1, as stated, fails on Scenario B: the send of `hi` to peer `42` confirmed
with id `7` leaves one entry with id `7`; the echoed live event with id `7` is
then accepted and appended, so the log changes and holds two entries with id
`7`. -/
theorem echo_after_send_duplicates_id :
    (handleSendMessage (.ok (some confirmed7)) 0 peer42).2 = [Emit.newMessage echo7] ∧
    countId 7 (handleSendMessage (.ok (some confirmed7)) 0 peer42).1.messages = 1 ∧
    (handleNewMessage echo7 (handleSendMessage (.ok (some confirmed7)) 0 peer42).1).messages
      ≠ (handleSendMessage (.ok (some confirmed7)) 0 peer42).1.messages ∧
    countId 7
      (handleNewMessage echo7 (handleSendMessage (.ok (some confirmed7)) 0 peer42).1).messages
      = 2 := by
  decide

/-- C1, amended: no delivery path of the Chat log compares ids.  A successful
history load leaves as many entries with id `i` as the response holds, every
live event that passes the relevance test adds one entry with its id, and
every confirmed send adds one entry with the server id; so an echoed live
event with the id of an already appended confirmed message adds a second
entry with that id. -/
theorem log_counts_every_delivery (i : Nat) (s : State) (m : Message) (req : FetchRequest)
    (data : List Message) (r : SendRequest) (d : SendResponse) (now : Int) :
    countId i (fetchMessages_resume req (.ok data) s).messages = countId i data ∧
    countId i (handleNewMessage m s).messages
      = countId i s.messages + (if accepts s m = true ∧ m.id = i then 1 else 0) ∧
    countId i (handleSendMessage_resume r (.ok (some d)) now s).1.messages
      = countId i s.messages + (if d.id = i then 1 else 0) ∧
    (accepts (handleSendMessage_resume r (.ok (some d)) now s).1 (sentMessage r d now) = true →
      countId d.id
        (handleNewMessage (sentMessage r d now)
          (handleSendMessage_resume r (.ok (some d)) now s).1).messages
        = countId d.id s.messages + 2) := by
  refine ⟨rfl, ?_, ?_, ?_⟩
  · rw [handleNewMessage_messages]
    by_cases h : accepts s m = true
    · rw [if_pos h, countId_append_singleton]
      by_cases hi : m.id = i
      · simp [h, hi]
      · simp [hi]
    · simp [h]
  · show countId i (s.messages ++ [sentMessage r d now]) = _
    rw [countId_append_singleton]
    rfl
  · intro h
    rw [handleNewMessage_messages, if_pos h, countId_append_singleton]
    show countId d.id (s.messages ++ [sentMessage r d now]) + _ = _
    rw [countId_append_singleton]
    simp [sentMessage]

/-- C2, as stated, fails: with the load for peer `42` pending, the live event
`live9` is accepted into the log; when the load then resolves with `[hist3]`
the log is `[hist3]` and the live event is gone. -/
theorem live_event_lost_on_load_resolution :
    (fetchMessages_begin true { peer42 with loading := true }).2 = some (.direct (some 42)) ∧
    live9 ∈ (handleNewMessage live9 { peer42 with loading := true }).messages ∧
    live9 ∉ (fetchMessages_resume (.direct (some 42)) (.ok [hist3])
              (handleNewMessage live9 { peer42 with loading := true })).messages := by
  decide

/-- C2, amended: when a history load resolves successfully the log is exactly
the sequence the load returned, whatever the listener appended while the
load was pending; the live event is in the log afterwards precisely when the
response itself contains it. -/
theorem load_resolution_replaces_log (req : FetchRequest) (data : List Message)
    (m : Message) (s : State) :
    (fetchMessages_resume req (.ok data) (handleNewMessage m s)).messages = data ∧
    (m ∈ (fetchMessages_resume req (.ok data) (handleNewMessage m s)).messages ↔ m ∈ data) :=
  ⟨rfl, Iff.rfl⟩

/-- C3, as stated, fails: a load is issued for peer `42`, the selection moves to
peer `77` (issuing a second load), the load for `77` resolves with `[hist5]`
and then the one for `42` resolves with `[hist3]`: the log shown for peer
`77` is `[hist3]`, the result of the older load. -/
theorem stale_load_overwrites_log :
    (fetchMessages_begin true peer42).2 = some (.direct (some 42)) ∧
    (selectConversation true (some 1, "ann") (some 77) none peer42).2
      = some (.direct (some 77)) ∧
    (fetchMessages_resume (.direct (some 42)) (.ok [hist3])
      (fetchMessages_resume (.direct (some 77)) (.ok [hist5])
        (selectConversation true (some 1, "ann") (some 77) none peer42).1)).selectedUserId
      = some 77 ∧
    (fetchMessages_resume (.direct (some 42)) (.ok [hist3])
      (fetchMessages_resume (.direct (some 77)) (.ok [hist5])
        (selectConversation true (some 1, "ann") (some 77) none peer42).1)).messages
      = [hist3] := by
  decide

/-- C3, amended: a resolving history load is applied whatever the selection has
become since it was issued: after any change of selection and any other
load's resolution, the successful resolution of the earlier request sets the
log to its response and leaves the new selection in place, so the load that
resolves last determines the log. -/
theorem load_resolution_ignores_selection (token : Bool) (identity : Option Nat × String)
    (u g : Option Nat) (req other : FetchRequest) (o : GetOutcome) (data : List Message)
    (s : State) :
    (fetchMessages_resume req (.ok data)
      (fetchMessages_resume other o (selectConversation token identity u g s).1)).messages
      = data ∧
    (fetchMessages_resume req (.ok data)
      (fetchMessages_resume other o (selectConversation token identity u g s).1)).selectedUserId
      = u ∧
    (fetchMessages_resume req (.ok data)
      (fetchMessages_resume other o (selectConversation token identity u g s).1)).selectedGroupId
      = g := by
  refine ⟨rfl, ?_, ?_⟩
  · cases o with
    | ok d =>
      simp only [fetchMessages_resume, selectConversation, fetchMessages_begin]
      split_ifs <;> rfl
    | error st =>
      simp only [fetchMessages_resume, selectConversation, fetchMessages_begin]
      split_ifs <;> rfl
  · cases o with
    | ok d =>
      simp only [fetchMessages_resume, selectConversation, fetchMessages_begin]
      split_ifs <;> rfl
    | error st =>
      simp only [fetchMessages_resume, selectConversation, fetchMessages_begin]
      split_ifs <;> rfl

end Chat

namespace Chat

/-- C4, as stated, fails: the log `[live9]` (created at `2000`) is
non-decreasing; the accepted live event `hist3`, created at `500`, is
appended behind it and the log is no longer non-decreasing.  A history
response in descending order is likewise stored as it comes. -/
theorem late_event_breaks_created_at_order :
    nonDecreasing ({ peer42 with messages := [live9] } : State).messages ∧
    accepts { peer42 with messages := [live9] } hist3 = true ∧
    (handleNewMessage hist3 { peer42 with messages := [live9] }).messages = [live9, hist3] ∧
    ¬ nonDecreasing (handleNewMessage hist3 { peer42 with messages := [live9] }).messages ∧
    ¬ nonDecreasing
        (fetchMessages_resume (.direct (some 42)) (.ok [live9, hist3]) peer42).messages := by
  unfold nonDecreasing
  refine ⟨List.chain'_singleton _, by decide, by decide, ?_, ?_⟩
  · show ¬ List.Chain' (fun a b => createdLe a b = true) [live9, hist3]
    rw [List.chain'_pair]
    decide
  · show ¬ List.Chain' (fun a b => createdLe a b = true) [live9, hist3]
    rw [List.chain'_pair]
    decide

/-- C4, amended: the Chat log is kept in arrival order and `created_at` is
never consulted.  A successful load stores the response in the order it came,
so the log is non-decreasing exactly when the response is; an accepted live
event and a confirmed send are appended at the end, so the log is
non-decreasing afterwards exactly when it was before and the last entry is
not later than the appended message; a rejected event leaves the log as it
was. -/
theorem log_is_in_arrival_order (s : State) (m : Message) (req : FetchRequest)
    (data : List Message) (r : SendRequest) (d : SendResponse) (now : Int) :
    (nonDecreasing (fetchMessages_resume req (.ok data) s).messages ↔ nonDecreasing data) ∧
    (handleNewMessage m s).messages
      = (if accepts s m = true then s.messages ++ [m] else s.messages) ∧
    (nonDecreasing (handleNewMessage m s).messages ↔
      nonDecreasing s.messages ∧
        (accepts s m = true → ∀ l ∈ s.messages.getLast?, createdLe l m = true)) ∧
    (handleSendMessage_resume r (.ok (some d)) now s).1.messages
      = s.messages ++ [sentMessage r d now] ∧
    (nonDecreasing (handleSendMessage_resume r (.ok (some d)) now s).1.messages ↔
      nonDecreasing s.messages ∧
        ∀ l ∈ s.messages.getLast?, createdLe l (sentMessage r d now) = true) := by
  refine ⟨Iff.rfl, handleNewMessage_messages m s, ?_, rfl, ?_⟩
  · rw [handleNewMessage_messages]
    by_cases h : accepts s m = true
    · rw [if_pos h, nonDecreasing_append_singleton]
      simp [h]
    · simp [h]
  · show nonDecreasing (s.messages ++ [sentMessage r d now]) ↔ _
    exact nonDecreasing_append_singleton _ _

/-- C9, as stated, fails: with `hi` typed and peer `42` selected, a send whose
persist request is rejected leaves the log unchanged and broadcasts nothing,
but the input has been cleared. -/
theorem failed_send_clears_input :
    (handleSendMessage .error 0 peer42).1.messages = peer42.messages ∧
    (handleSendMessage .error 0 peer42).2 = [] ∧
    peer42.inputMessage = "hi" ∧
    (handleSendMessage .error 0 peer42).1.inputMessage = "" ∧
    (handleSendMessage .error 0 peer42).1 ≠ peer42 := by
  decide

/-- C9, amended: when the persist request of a send fails the message log is
unchanged and nothing is broadcast, and the only change of the component
state is that the input was cleared when the request was issued (the guard
passed); the rejection itself changes nothing in the state it finds. -/
theorem failed_send_keeps_log_and_clears_input (s sLater : State) (r : SendRequest)
    (now : Int) :
    handleSendMessage .error now s
      = (if (hasContent s.inputMessage && (truthy s.selectedUserId || truthy s.selectedGroupId))
            = true
         then { s with inputMessage := "" } else s, []) ∧
    (handleSendMessage .error now s).1.messages = s.messages ∧
    (handleSendMessage .error now s).2 = [] ∧
    handleSendMessage_resume r .error now sLater = (sLater, []) := by
  have h : handleSendMessage .error now s
      = (if (hasContent s.inputMessage && (truthy s.selectedUserId || truthy s.selectedGroupId))
            = true
         then { s with inputMessage := "" } else s, []) := by
    unfold handleSendMessage handleSendMessage_begin
    split_ifs <;> rfl
  refine ⟨h, ?_, ?_, rfl⟩
  · rw [h]
    split_ifs <;> rfl
  · rw [h]

/-- C10: when a history load fails, the log afterwards is empty if the
rejection carries a 404 response, and is the log that existed before for
every other failure (another status, or no response at all); issuing the
load does not touch the log either. -/
theorem failed_load_log (token : Bool) (req : FetchRequest) (status : Option Nat)
    (s : State) :
    (fetchMessages_begin token s).1.messages = s.messages ∧
    (status = some 404 → (fetchMessages_resume req (.error status) s).messages = []) ∧
    (status ≠ some 404 →
      (fetchMessages_resume req (.error status) s).messages = s.messages) := by
  refine ⟨?_, ?_, ?_⟩
  · unfold fetchMessages_begin
    split_ifs <;> rfl
  · intro h
    simp [fetchMessages_resume, h]
  · intro h
    simp [fetchMessages_resume, h]

end Chat

/-! ## The registry of `Sidebar` -/

namespace Sidebar

theorem includes_iff (haystack needle : String) :
    includes haystack needle = true ↔ needle.data <:+: haystack.data := by
  unfold includes
  rw [List.any_eq_true, List.infix_iff_prefix_suffix]
  constructor
  · rintro ⟨t, ht, hp⟩
    exact ⟨t, List.isPrefixOf_iff_prefix.mp hp, (List.mem_tails _ _).mp ht⟩
  · rintro ⟨t, hp, hs⟩
    exact ⟨t, (List.mem_tails _ _).mpr hs, List.isPrefixOf_iff_prefix.mpr hp⟩

theorem sort_perm {α : Type} (compare : α → α → Option Int) (l : List α) :
    (sort compare l).Perm l :=
  List.perm_insertionSort _ l

theorem mem_sort {α : Type} (compare : α → α → Option Int) (l : List α) (a : α) :
    a ∈ sort compare l ↔ a ∈ l :=
  (sort_perm compare l).mem_iff

theorem orderedInsert_congr {α : Type} (r r' : α → α → Prop) [DecidableRel r]
    [DecidableRel r'] (a : α) (l : List α) (h : ∀ b ∈ l, r a b ↔ r' a b) :
    l.orderedInsert r a = l.orderedInsert r' a := by
  induction l with
  | nil => rfl
  | cons b l ih =>
    have hb : r a b ↔ r' a b := h b (List.mem_cons_self b l)
    have hl : ∀ c ∈ l, r a c ↔ r' a c := fun c hc => h c (List.mem_cons_of_mem b hc)
    by_cases hr : r a b
    · simp only [List.orderedInsert, if_pos hr, if_pos (hb.mp hr)]
    · have hr' : ¬ r' a b := fun h' => hr (hb.mpr h')
      simp only [List.orderedInsert, if_neg hr, if_neg hr', ih hl]

theorem insertionSort_congr {α : Type} (r r' : α → α → Prop) [DecidableRel r]
    [DecidableRel r'] (l : List α) (h : ∀ a ∈ l, ∀ b ∈ l, r a b ↔ r' a b) :
    l.insertionSort r = l.insertionSort r' := by
  induction l with
  | nil => rfl
  | cons a l ih =>
    have hl : ∀ x ∈ l, ∀ y ∈ l, r x y ↔ r' x y :=
      fun x hx y hy => h x (List.mem_cons_of_mem a hx) y (List.mem_cons_of_mem a hy)
    simp only [List.insertionSort, ih hl]
    refine orderedInsert_congr r r' a _ ?_
    intro b hb
    have hb' : b ∈ l := (List.mem_insertionSort r').mp hb
    exact h a (List.mem_cons_self a l) b (List.mem_cons_of_mem a hb')

/-- Entries of one class that the comparator ties keep their registry order. -/
theorem sort_stable {α : Type} (compare : α → α → Option Int) (p : α → Bool) (l : List α)
    (htie : ∀ a b, p a = true → p b = true → (compare a b).getD 0 ≤ 0) :
    (sort compare l).filter p = l.filter p := by
  have hsub : List.Sublist (l.filter p) (sort compare l) := by
    refine List.sublist_insertionSort ?_ (List.filter_sublist l)
    rw [List.pairwise_iff_forall_sublist]
    intro a b hab
    have ha : a ∈ l.filter p := hab.subset (by simp)
    have hb : b ∈ l.filter p := hab.subset (by simp)
    exact htie a b (List.mem_filter.mp ha).2 (List.mem_filter.mp hb).2
  have hsub2 := hsub.filter p
  rw [List.filter_filter] at hsub2
  simp only [Bool.and_self] at hsub2
  have hlen : ((sort compare l).filter p).length = (l.filter p).length :=
    ((sort_perm compare l).filter p).length_eq
  exact (hsub2.eq_of_length hlen.symm).symm

/-- The sort key of a recorded time that is absent or a date. -/
theorem recentMessage_of_afterEpoch (t : Option TimeValue) (h : afterEpoch t = true) :
    recentMessage t = some ((recentMessage t).getD 0) ∧
      (t = none ∨ ∃ v, t = some (.ms v) ∧ 0 < v) := by
  cases t with
  | none => exact ⟨rfl, Or.inl rfl⟩
  | some tv =>
    cases tv with
    | ms v =>
      refine ⟨rfl, Or.inr ⟨v, rfl, ?_⟩⟩
      simpa [afterEpoch] using h
    | nan => simp [afterEpoch] at h

/-- On a list whose recorded times are absent or dates after the epoch, the
sorted list is non-increasing in the sort key. -/
theorem sort_pairwise {α : Type} (time : α → Option TimeValue) (l : List α)
    (h : ∀ a ∈ l, afterEpoch (time a) = true) :
    (sort (fun a b => minus (recentMessage (time b)) (recentMessage (time a))) l).Pairwise
      (fun a b => (recentMessage (time b)).getD 0 ≤ (recentMessage (time a)).getD 0) := by
  let key : α → Int := fun a => (recentMessage (time a)).getD 0
  haveI : IsTotal α (fun a b => key b - key a ≤ 0) := ⟨fun a b => by
    show key b - key a ≤ 0 ∨ key a - key b ≤ 0
    omega⟩
  haveI : IsTrans α (fun a b => key b - key a ≤ 0) := ⟨fun a b c hab hbc => by
    show key c - key a ≤ 0
    have h1 : key b - key a ≤ 0 := hab
    have h2 : key c - key b ≤ 0 := hbc
    omega⟩
  have hcongr : sort (fun a b => minus (recentMessage (time b)) (recentMessage (time a))) l
      = l.insertionSort (fun a b => key b - key a ≤ 0) := by
    unfold sort
    refine insertionSort_congr _ _ l ?_
    intro a ha b hb
    have e1 := (recentMessage_of_afterEpoch (time a) (h a ha)).1
    have e2 := (recentMessage_of_afterEpoch (time b) (h b hb)).1
    show (minus (recentMessage (time b)) (recentMessage (time a))).getD 0 ≤ 0 ↔ _
    rw [e1, e2]
    rfl
  rw [hcongr]
  refine List.Pairwise.imp ?_ (List.sorted_insertionSort (fun a b => key b - key a ≤ 0) l)
  intro a b hab
  have h1 : key b - key a ≤ 0 := hab
  show key b ≤ key a
  omega

end Sidebar

namespace Sidebar

theorem unreadCount_map (f : User → User) (hf : ∀ u, (f u).id = u.id) (users : List User)
    (k : Nat) :
    unreadCount (users.map f) k =
      match users.find? (fun u => u.id == k) with
      | some u => (f u).unreadMessagesCount.getD 0
      | none => 0 := by
  unfold unreadCount
  rw [List.find?_map]
  have hp : ((fun u : User => u.id == k) ∘ f) = (fun u : User => u.id == k) := by
    funext u
    simp [hf]
  rw [hp]
  cases users.find? (fun u => u.id == k) <;> rfl

theorem groupUnreadCount_map (f : Group → Group) (hf : ∀ g, (f g).id = g.id)
    (groups : List Group) (k : Nat) :
    groupUnreadCount (groups.map f) k =
      match groups.find? (fun g => g.id == k) with
      | some g => (f g).unreadMessagesCount.getD 0
      | none => 0 := by
  unfold groupUnreadCount
  rw [List.find?_map]
  have hp : ((fun g : Group => g.id == k) ∘ f) = (fun g : Group => g.id == k) := by
    funext g
    simp [hf]
  rw [hp]
  cases groups.find? (fun g => g.id == k) <;> rfl

theorem updateUser_id (t : Int) (m : Message) (u : User) : (updateUser t m u).id = u.id := by
  unfold updateUser
  split_ifs <;> rfl

theorem updateGroup_id (t : Int) (m : Message) (g : Group) : (updateGroup t m g).id = g.id := by
  unfold updateGroup
  split_ifs <;> rfl

theorem updateGroup_unread (t : Int) (m : Message) (g : Group) :
    (updateGroup t m g).unreadMessagesCount = g.unreadMessagesCount := by
  unfold updateGroup
  split_ifs <;> rfl

/-- C5, as stated, fails: peer `42` has three unread messages; when the
mark-as-read request is rejected, `handleSelectUser` leaves the registry as
it was, the unread count of `42` is still `3`, and the selection callback is
not invoked. -/
theorem failed_mark_read_keeps_unread_count :
    unreadCount roster.users 42 = 3 ∧
    unreadCount (handleSelectUser true .error (.ok (some 1)) 42 roster).1.users 42 = 3 ∧
    handleSelectUser true .error (.ok (some 1)) 42 roster = (roster, none) := by
  decide

/-- C5, amended: when the token is present and both the mark-as-read request
and the following current-user request succeed, after `handleSelectUser` the
unread count of the selected user is zero and the unread counts of all other
users are unchanged; when the token is missing or either request fails, the
registry is left as it was (the unread count is not reset) and the selection
callback is not invoked. -/
theorem select_user_resets_unread_on_success (s : State) (userId k : Nat)
    (data : Option Nat) (markRead : Outcome Unit) (userResponse : Outcome (Option Nat)) :
    unreadCount (handleSelectUser true (.ok ()) (.ok data) userId s).1.users k
      = (if k = userId then 0 else unreadCount s.users k) ∧
    (handleSelectUser true (.ok ()) (.ok data) userId s).2 = some userId ∧
    handleSelectUser true .error userResponse userId s = (s, none) ∧
    handleSelectUser true markRead .error userId s = (s, none) ∧
    handleSelectUser false markRead userResponse userId s = (s, none) := by
  refine ⟨?_, rfl, rfl, ?_, rfl⟩
  · show unreadCount (s.users.map _) k = _
    rw [unreadCount_map _ (fun u => by split_ifs <;> rfl)]
    unfold unreadCount
    cases hfind : s.users.find? (fun u => u.id == k) with
    | none => simp
    | some u =>
      have hid : u.id = k := by
        have := List.find?_some hfind
        simpa using this
      by_cases hk : k = userId
      · simp [hid, hk]
      · simp [hid, hk]
  · cases markRead <;> rfl

end Sidebar

namespace Sidebar

theorem unreadCount_updateUser_hit (t : Int) (m : Message) (users : List User) (k : Nat)
    (hs : m.sender_id = some k) (hk : ∃ u ∈ users, u.id = k) :
    unreadCount (users.map (updateUser t m)) k = unreadCount users k + 1 := by
  rw [unreadCount_map _ (updateUser_id t m)]
  unfold unreadCount
  cases hfind : users.find? (fun u => u.id == k) with
  | none =>
    obtain ⟨u, hu, hid⟩ := hk
    have := List.find?_eq_none.mp hfind u hu
    simp [hid] at this
  | some u =>
    have hid : u.id = k := by
      have := List.find?_some hfind
      simpa using this
    simp [updateUser, hs, hid]

theorem unreadCount_updateUser_miss (t : Int) (m : Message) (users : List User) (k : Nat)
    (h : ¬ (m.sender_id = some k ∧ ∃ u ∈ users, u.id = k)) :
    unreadCount (users.map (updateUser t m)) k = unreadCount users k := by
  rw [unreadCount_map _ (updateUser_id t m)]
  unfold unreadCount
  cases hfind : users.find? (fun u => u.id == k) with
  | none => rfl
  | some u =>
    have hid : u.id = k := by
      have := List.find?_some hfind
      simpa using this
    have hne : ¬ (some u.id = m.sender_id) := by
      intro hs
      exact h ⟨by rw [← hs, hid], u, List.mem_of_find?_eq_some hfind, hid⟩
    simp [updateUser, hne]

/-- C6, as stated, fails on Scenario C: group `5` is not the open group when the
live event `{group_id: 5, id: 9}` arrives, and its unread count is the same
after the event as before (the event only touches the group's last-activity
time and message list). -/
theorem group_event_leaves_unread_count :
    roster.selectedGroupId = none ∧
    groupUnreadCount roster.groups 5 = 0 ∧
    groupUnreadCount (onNewMessage 0 groupEvent9 roster).groups 5 = 0 ∧
    (onNewMessage 0 groupEvent9 roster).users = roster.users ∧
    (onNewMessage 0 groupEvent9 roster).groups ≠ roster.groups := by
  decide

/-- C6, amended: the Sidebar listener never consults which conversation is
active.  For a live event without group id whose `sender_id` is set, the
unread count of the registered user with that id increases by exactly 1,
whether or not that conversation is open, and every other unread count is
unchanged; for a live event with a group id no unread count changes, of a
user or of a group. -/
theorem sidebar_event_unread_counts (now : Int) (m : Message) (s : State) (k : Nat) :
    ((truthy m.group_id = false ∧ truthy m.sender_id = true ∧ m.sender_id = some k ∧
        ∃ u ∈ s.users, u.id = k) →
      unreadCount (onNewMessage now m s).users k = unreadCount s.users k + 1) ∧
    (¬ (truthy m.group_id = false ∧ truthy m.sender_id = true ∧ m.sender_id = some k ∧
        ∃ u ∈ s.users, u.id = k) →
      unreadCount (onNewMessage now m s).users k = unreadCount s.users k) ∧
    groupUnreadCount (onNewMessage now m s).groups k = groupUnreadCount s.groups k ∧
    (onNewMessage now m s).selectedGroupId = s.selectedGroupId := by
  by_cases hg : truthy m.group_id = true
  · have hr : onNewMessage now m s
        = { s with groups := s.groups.map (updateGroup (m.created_at.getD now) m) } := by
      simp [onNewMessage, hg]
    rw [hr]
    refine ⟨fun h => ?_, fun _ => rfl, ?_, rfl⟩
    · rw [hg] at h
      exact absurd h.1 (by decide)
    · show groupUnreadCount (s.groups.map _) k = _
      rw [groupUnreadCount_map _ (updateGroup_id _ m)]
      unfold groupUnreadCount
      cases s.groups.find? (fun g => g.id == k) with
      | none => rfl
      | some g => simp [updateGroup_unread]
  · by_cases hs : truthy m.sender_id = true
    · have hr : onNewMessage now m s
          = { s with users := s.users.map (updateUser (m.created_at.getD now) m) } := by
        simp [onNewMessage, hg, hs]
      rw [hr]
      refine ⟨fun h => ?_, fun h => ?_, rfl, rfl⟩
      · exact unreadCount_updateUser_hit _ m s.users k h.2.2.1 h.2.2.2
      · refine unreadCount_updateUser_miss _ m s.users k ?_
        intro h2
        exact h ⟨by simpa using hg, hs, h2.1, h2.2⟩
    · have hr : onNewMessage now m s = s := by
        simp [onNewMessage, hg, hs]
      rw [hr]
      refine ⟨fun h => ?_, fun _ => rfl, rfl, rfl⟩
      exact absurd h.2.1 hs

end Sidebar

namespace Sidebar

/-- C7, as stated, fails: the viewer is user `1`; a direct message from user
`2` to user `3` arrives.  The claim lets no conversation change, but the
Sidebar listener updates the entry of the sender `2`: its unread count goes
from `0` to `1` and its last-activity time is set. -/
theorem foreign_message_updates_sender_entry :
    roster.currentUser = some 1 ∧
    foreign11.sender_id = some 2 ∧ foreign11.receiver_id = some 3 ∧
    foreign11.group_id = none ∧
    unreadCount roster.users 2 = 0 ∧
    unreadCount (onNewMessage 0 foreign11 roster).users 2 = 1 ∧
    (onNewMessage 0 foreign11 roster).users
      = [bob42, { carl2 with mostRecentMessageTime := some (.ms 4000),
                             unreadMessagesCount := some 1,
                             messages := some [foreign11] }] := by
  decide

/-- C7, amended: the Sidebar listener keys a live message by its group id when
that is present and otherwise by `sender_id`, without consulting the local
identity or `receiver_id`: only group entries with that group id, resp. only
user entries with that sender id, change (so a direct message between two
other users updates the sender's entry), and nothing else in the Sidebar
state changes.  The Chat listener changes only the open log, and only for a
message it accepts: in a direct conversation an accepted message without
group id has the open peer as its peer relative to the local identity, in a
group conversation its group id is the open group. -/
theorem event_changes_only_keyed_entry (now : Int) (m : Message) (s : State)
    (c : Chat.State) :
    (∀ (i : Nat) (u : User), s.users[i]? = some u →
      ¬ (truthy m.group_id = false ∧ truthy m.sender_id = true ∧ m.sender_id = some u.id) →
      (onNewMessage now m s).users[i]? = some u) ∧
    (∀ (i : Nat) (u : User), s.users[i]? = some u →
      (truthy m.group_id = false ∧ truthy m.sender_id = true ∧ m.sender_id = some u.id) →
      (onNewMessage now m s).users[i]? =
        some { u with mostRecentMessageTime := some (.ms (m.created_at.getD now)),
                      unreadMessagesCount := some (u.unreadMessagesCount.getD 0 + 1),
                      messages := some (u.messages.getD [] ++ [m]) }) ∧
    (∀ (i : Nat) (g : Group), s.groups[i]? = some g →
      ¬ (truthy m.group_id = true ∧ m.group_id = some g.id) →
      (onNewMessage now m s).groups[i]? = some g) ∧
    (onNewMessage now m s).users.length = s.users.length ∧
    (onNewMessage now m s).groups.length = s.groups.length ∧
    (onNewMessage now m s).currentUser = s.currentUser ∧
    (onNewMessage now m s).searchQuery = s.searchQuery ∧
    (onNewMessage now m s).selectedGroupId = s.selectedGroupId ∧
    (Chat.accepts c m = false → Chat.handleNewMessage m c = c) ∧
    (Chat.accepts c m = true →
      Chat.handleNewMessage m c = { c with messages := c.messages ++ [m] }) ∧
    (Chat.accepts c m = true → truthy m.group_id = false →
      (if m.sender_id = c.userId then m.receiver_id else m.sender_id) = c.selectedUserId) ∧
    (Chat.accepts c m = true → truthy c.selectedUserId = false →
      m.group_id = c.selectedGroupId) := by
  have hchat1 : Chat.accepts c m = false → Chat.handleNewMessage m c = c := by
    intro h
    rw [Chat.handleNewMessage_eq]
    simp [h]
  have hchat2 : Chat.accepts c m = true →
      Chat.handleNewMessage m c = { c with messages := c.messages ++ [m] } := by
    intro h
    rw [Chat.handleNewMessage_eq]
    simp [h]
  have hchat3 : Chat.accepts c m = true → truthy m.group_id = false →
      (if m.sender_id = c.userId then m.receiver_id else m.sender_id) = c.selectedUserId := by
    intro h hg
    rcases (Chat.accepts_iff c m).mp h with ⟨_, h1 | h1⟩ | ⟨hu, hsel, h1⟩
    · simp [h1.1, h1.2]
    · by_cases hself : m.sender_id = c.userId
      · rw [if_pos hself, h1.2, ← hself, h1.1]
      · rw [if_neg hself, h1.1]
    · rw [h1, hsel] at hg
      exact absurd hg (by decide)
  have hchat4 : Chat.accepts c m = true → truthy c.selectedUserId = false →
      m.group_id = c.selectedGroupId := by
    intro h hu
    rcases (Chat.accepts_iff c m).mp h with ⟨hu2, _⟩ | ⟨_, _, h1⟩
    · rw [hu] at hu2
      exact absurd hu2 (by decide)
    · exact h1
  by_cases hg : truthy m.group_id = true
  · have hr : onNewMessage now m s
        = { s with groups := s.groups.map (updateGroup (m.created_at.getD now) m) } := by
      simp [onNewMessage, hg]
    rw [hr]
    refine ⟨fun i u hu _ => hu, fun i u _ h => ?_, fun i g hgi h => ?_, rfl, ?_, rfl, rfl, rfl,
      hchat1, hchat2, hchat3, hchat4⟩
    · rw [hg] at h
      exact absurd h.1 (by decide)
    · show (s.groups.map _)[i]? = some g
      rw [List.getElem?_map, hgi]
      have hne : ¬ (some g.id = m.group_id) := fun he => h ⟨hg, he.symm⟩
      simp [updateGroup, hne]
    · simp
  · by_cases hs : truthy m.sender_id = true
    · have hr : onNewMessage now m s
          = { s with users := s.users.map (updateUser (m.created_at.getD now) m) } := by
        simp [onNewMessage, hg, hs]
      rw [hr]
      refine ⟨fun i u hu h => ?_, fun i u hu h => ?_, fun i g hgi _ => hgi, ?_, rfl, rfl, rfl,
        rfl, hchat1, hchat2, hchat3, hchat4⟩
      · show (s.users.map _)[i]? = some u
        rw [List.getElem?_map, hu]
        have hne : ¬ (some u.id = m.sender_id) :=
          fun he => h ⟨by simpa using hg, hs, he.symm⟩
        simp [updateUser, hne]
      · show (s.users.map _)[i]? = _
        rw [List.getElem?_map, hu]
        have he : some u.id = m.sender_id := h.2.2.symm
        cases hm : u.messages <;> simp [updateUser, he, hm]
      · simp
    · have hr : onNewMessage now m s = s := by
        simp [onNewMessage, hg, hs]
      rw [hr]
      refine ⟨fun i u hu _ => hu, fun i u _ h => ?_, fun i g hgi _ => hgi, rfl, rfl, rfl, rfl,
        rfl, hchat1, hchat2, hchat3, hchat4⟩
      exact absurd h.2.1 hs

end Sidebar

namespace Sidebar

theorem ranked_list {α : Type} (time : α → Option TimeValue) (l : List α)
    (h : ∀ a ∈ l, afterEpoch (time a) = true) :
    (sort (fun a b => minus (recentMessage (time b)) (recentMessage (time a))) l).Pairwise
        (fun a b => ∀ ta tb, time a = some (.ms ta) → time b = some (.ms tb) → tb ≤ ta) ∧
    (sort (fun a b => minus (recentMessage (time b)) (recentMessage (time a))) l).Pairwise
        (fun a b => time a = none → time b = none) ∧
    (∀ x : Option TimeValue,
      (sort (fun a b => minus (recentMessage (time b)) (recentMessage (time a))) l).filter
          (fun a => decide (time a = x))
        = l.filter (fun a => decide (time a = x))) := by
  refine ⟨?_, ?_, ?_⟩
  · refine List.Pairwise.imp ?_ (sort_pairwise time l h)
    intro a b hab ta tb ha hb
    rw [ha, hb] at hab
    exact hab
  · refine List.Pairwise.imp_of_mem ?_ (sort_pairwise time l h)
    intro a b _ hb hab ha
    rcases (recentMessage_of_afterEpoch (time b) (h b ((mem_sort _ l b).mp hb))).2 with
      hnone | ⟨v, hv, hpos⟩
    · exact hnone
    · rw [ha, hv] at hab
      have hle : v ≤ 0 := hab
      omega
  · intro x
    refine sort_stable _ _ l ?_
    intro a b ha hb
    have ea : time a = x := of_decide_eq_true ha
    have eb : time b = x := of_decide_eq_true hb
    rw [ea, eb]
    cases hx : recentMessage x with
    | none => simp [minus]
    | some v => simp [minus]

/-- C8: for every registry list whose recorded last-activity times are those of
messages (absent, or a date after the epoch) and every search query,
`filteredUsers` (and likewise `filteredGroups`) is exactly the entries whose
lower-cased display name contains the lower-cased query as a substring,
ordered so that last-activity time is non-increasing, with every entry that
has no activity placed after every entry that has activity, and with entries
of equal or absent activity kept in their original registry order.  It holds
for whatever function the platform's `toLowerCase` is.  (The comparator reads
`0` for an entry without activity; the condition on the recorded times is
what tells that reading from the reading of a recorded time.) -/
theorem filtered_lists_ranked_by_activity (toLowerCase : String → String)
    (users : List User) (groups : List Group) (searchQuery : String)
    (hu : ∀ u ∈ users, afterEpoch u.mostRecentMessageTime = true)
    (hg : ∀ g ∈ groups, afterEpoch g.mostRecentMessageTime = true) :
    ((∀ u, u ∈ filteredUsers toLowerCase users searchQuery ↔
        u ∈ users ∧ (toLowerCase searchQuery).data <:+: (toLowerCase u.username).data) ∧
      (filteredUsers toLowerCase users searchQuery).Perm
        (users.filter (fun u =>
          decide ((toLowerCase searchQuery).data <:+: (toLowerCase u.username).data))) ∧
      (filteredUsers toLowerCase users searchQuery).Pairwise (fun a b => ∀ ta tb,
        a.mostRecentMessageTime = some (.ms ta) → b.mostRecentMessageTime = some (.ms tb) →
          tb ≤ ta) ∧
      (filteredUsers toLowerCase users searchQuery).Pairwise (fun a b =>
        a.mostRecentMessageTime = none → b.mostRecentMessageTime = none) ∧
      (∀ x : Option TimeValue,
        (filteredUsers toLowerCase users searchQuery).filter
            (fun u => decide (u.mostRecentMessageTime = x))
          = (users.filter (fun u =>
              decide ((toLowerCase searchQuery).data <:+: (toLowerCase u.username).data))).filter
              (fun u => decide (u.mostRecentMessageTime = x)))) ∧
    ((∀ g, g ∈ filteredGroups toLowerCase groups searchQuery ↔
        g ∈ groups ∧ (toLowerCase searchQuery).data <:+: (toLowerCase g.name).data) ∧
      (filteredGroups toLowerCase groups searchQuery).Perm
        (groups.filter (fun g =>
          decide ((toLowerCase searchQuery).data <:+: (toLowerCase g.name).data))) ∧
      (filteredGroups toLowerCase groups searchQuery).Pairwise (fun a b => ∀ ta tb,
        a.mostRecentMessageTime = some (.ms ta) → b.mostRecentMessageTime = some (.ms tb) →
          tb ≤ ta) ∧
      (filteredGroups toLowerCase groups searchQuery).Pairwise (fun a b =>
        a.mostRecentMessageTime = none → b.mostRecentMessageTime = none) ∧
      (∀ x : Option TimeValue,
        (filteredGroups toLowerCase groups searchQuery).filter
            (fun g => decide (g.mostRecentMessageTime = x))
          = (groups.filter (fun g =>
              decide ((toLowerCase searchQuery).data <:+: (toLowerCase g.name).data))).filter
              (fun g => decide (g.mostRecentMessageTime = x)))) := by
  have eu : (fun u : User => includes (toLowerCase u.username) (toLowerCase searchQuery))
      = (fun u =>
          decide ((toLowerCase searchQuery).data <:+: (toLowerCase u.username).data)) := by
    funext u
    rw [Bool.eq_iff_iff, includes_iff]
    simp
  have eg : (fun g : Group => includes (toLowerCase g.name) (toLowerCase searchQuery))
      = (fun g => decide ((toLowerCase searchQuery).data <:+: (toLowerCase g.name).data)) := by
    funext g
    rw [Bool.eq_iff_iff, includes_iff]
    simp
  unfold filteredUsers filteredGroups
  rw [eu, eg]
  have hu' : ∀ u ∈ users.filter (fun u =>
      decide ((toLowerCase searchQuery).data <:+: (toLowerCase u.username).data)),
      afterEpoch u.mostRecentMessageTime = true :=
    fun u hmem => hu u (List.mem_filter.mp hmem).1
  have hg' : ∀ g ∈ groups.filter (fun g =>
      decide ((toLowerCase searchQuery).data <:+: (toLowerCase g.name).data)),
      afterEpoch g.mostRecentMessageTime = true :=
    fun g hmem => hg g (List.mem_filter.mp hmem).1
  obtain ⟨u1, u2, u3⟩ := ranked_list (fun u : User => u.mostRecentMessageTime) _ hu'
  obtain ⟨g1, g2, g3⟩ := ranked_list (fun g : Group => g.mostRecentMessageTime) _ hg'
  refine ⟨⟨fun u => ?_, sort_perm _ _, u1, u2, u3⟩, ⟨fun g => ?_, sort_perm _ _, g1, g2, g3⟩⟩
  · rw [mem_sort]
    simp
  · rw [mem_sort]
    simp

/-- C8 at a concrete registry: `Al` and `Val` never had activity, `ALBERT` was
last active at `5000` and `alma` at `9000`, `bob` does not match; the query
`aL` lists `alma`, `ALBERT`, `Al`, `Val` in this order. -/
theorem filtered_lists_ranked_at_example :
    (∀ u ∈ [al, bob42, albert, val, alma], afterEpoch u.mostRecentMessageTime = true) ∧
    (∀ g ∈ [team5], afterEpoch g.mostRecentMessageTime = true) ∧
    filteredUsers lowerLatin [al, bob42, albert, val, alma] "aL" = [alma, albert, al, val] ∧
    (filteredUsers lowerLatin [al, bob42, albert, val, alma] "aL").Pairwise (fun a b =>
      a.mostRecentMessageTime = none → b.mostRecentMessageTime = none) ∧
    (filteredUsers lowerLatin [al, bob42, albert, val, alma] "aL").filter
        (fun u => decide (u.mostRecentMessageTime = none)) = [al, val] :=
  ⟨by decide, by decide, by decide,
    (filtered_lists_ranked_by_activity lowerLatin [al, bob42, albert, val, alma] [team5] "aL"
      (by decide) (by decide)).1.2.2.2.1,
    ((filtered_lists_ranked_by_activity lowerLatin [al, bob42, albert, val, alma] [team5] "aL"
      (by decide) (by decide)).1.2.2.2.2 none).trans (by decide)⟩

end Sidebar
